import Mathlib

/-!
Verification of the `servicediscovery` Go package (service_discovery.go).

The package manages service registration and lookup via Zeroconf/mDNS.
We shallowly embed its data model and operations:

* `ServiceEntry` mirrors the fields of `zeroconf.ServiceEntry` that the
  package populates (`HostName`, `Port`, `Text`).
* `ConfigValue` models the Go `interface{}` returned by `Service.Config()`:
  either structurally a `map[string]string` (modelled as an association
  list with the iteration order left abstract in the list order) or any
  other dynamic shape (modelled opaquely by a description string).
* `Service` mirrors the `Service` interface (the `Start` method is never
  called by the package, so it is not part of the embedding).
* The registry `map[string]*zeroconf.ServiceEntry` is modelled as an
  association list with overwrite-on-insert, unique keys preserved.
* External effects (`zeroconf.NewResolver`, `zeroconf.Register`,
  `server.Shutdown`) are modelled by an oracle parameter giving each
  attempt's outcome, and by an event trace recording the calls that the
  operation performs before returning.  `log.Fatalf` is modelled as the
  `Outcome.fatal` constructor: the process aborts.  `Outcome` also offers
  a `recoverableError` constructor so that "no error is surfaced to the
  caller as a recoverable result" is a statement about the embedding, not
  a vacuity: the embedded operations never produce it.
-/

/-- Mirrors the fields of `zeroconf.ServiceEntry` that `Register` fills in:
`HostName`, `Port` and `Text` (the TXT records). -/
structure ServiceEntry where
  hostName : String
  port : Int
  text : List String
deriving DecidableEq, Repr

/-- The dynamic value returned by `Service.Config()` (`interface{}` in Go):
either structurally a `map[string]string`, or a value of any other shape,
kept opaque. -/
inductive ConfigValue where
  | strMap (entries : List (String × String))
  | other (shape : String)
deriving DecidableEq, Repr

/-- Mirrors the `Service` interface: `Hostname()`, `Port()`, `ServiceType()`,
`ID()` and `Config()`.  `Start` is never invoked by the package and is
omitted. -/
structure Service where
  hostname : String
  port : Int
  serviceType : String
  id : String
  config : ConfigValue
deriving DecidableEq, Repr

/-- The TXT-record encoding performed at the top of `Register`: if the
config is a `map[string]string`, one `key + "=" + val` string per entry;
for any other dynamic shape the type assertion fails and `txtRecords`
stays empty (`nil`). -/
def encodeTxtRecords : ConfigValue → List String
  | .strMap entries => entries.map (fun kv => kv.1 ++ "=" ++ kv.2)
  | .other _ => []

/-- Lookup in the registry map: the entry stored under `id`, if any
(`sd.services[id]`, which in Go yields the zero value `nil` on a miss,
i.e. an absent pointer). -/
def lookupEntry : List (String × ServiceEntry) → String → Option ServiceEntry
  | [], _ => none
  | p :: r, id => if p.1 = id then some p.2 else lookupEntry r id

/-- Removal of a key, used to express map overwrite on an association
list. -/
def removeEntry : List (String × ServiceEntry) → String → List (String × ServiceEntry)
  | [], _ => []
  | p :: r, id => if p.1 = id then removeEntry r id else p :: removeEntry r id

/-- Map assignment `sd.services[id] = e`: overwrites any previous binding
of `id`. -/
def insertEntry (r : List (String × ServiceEntry)) (id : String) (e : ServiceEntry) :
    List (String × ServiceEntry) :=
  (id, e) :: removeEntry r id

/-- The state of a `ServiceDiscovery` value: the registry map and the
`serviceType` string stored by the constructor.  The `resolver` field is
an opaque handle that no operation ever reads; it has no observable
content and is omitted from the state. -/
structure ServiceDiscovery where
  services : List (String × ServiceEntry)
  serviceType : String
deriving DecidableEq, Repr

/-- Outcome of one call to an external primitive (`zeroconf.NewResolver`
or `zeroconf.Register`): success, or an error value. -/
inductive ExtResult where
  | ok
  | err (msg : String)
deriving DecidableEq, Repr

/-- Result of an operation of the package as observed by its caller and
the operating system: a normal return, a process abort via `log.Fatalf`,
or an error returned to the caller for it to handle.  The last is part of
the modelling space only: the embedded operations never produce it. -/
inductive Outcome (α : Type) where
  | ok (a : α)
  | fatal (msg : String)
  | recoverableError (msg : String)
deriving Repr, DecidableEq

/-- External calls `Register` performs, in order, recorded as a trace:
the `zeroconf.Register(instance, serviceType, domain, port, txt, nil)`
call and the deferred `server.Shutdown()`. -/
inductive Event where
  | extRegister (instanceName serviceTy domain : String) (port : Int) (txt : List String)
  | shutdown
deriving DecidableEq, Repr

/-- The `zeroconf.ServiceEntry` literal that `Register` stores under
`s.ID()`. -/
def serviceEntryOf (s : Service) : ServiceEntry :=
  { hostName := s.hostname, port := s.port, text := encodeTxtRecords s.config }

/-- The external registration call `Register` performs:
`zeroconf.Register(s.Hostname(), s.ServiceType(), "local.", s.Port(), txtRecords, nil)`. -/
def extRegisterEvent (s : Service) : Event :=
  .extRegister s.hostname s.serviceType "local." s.port (encodeTxtRecords s.config)

/-- `NewServiceDiscovery(serviceType)`: constructs the resolver.  The
oracle `rext` gives the outcome of each successive attempt at
`zeroconf.NewResolver(nil)`; the code performs exactly one attempt
(`rext 0`).  On error it calls `log.Fatalf` (process abort), otherwise it
returns the instance with an empty registry. -/
def NewServiceDiscovery (serviceType : String) (rext : Nat → ExtResult) :
    Outcome ServiceDiscovery :=
  match rext 0 with
  | .err msg => .fatal msg
  | .ok => .ok { services := [], serviceType := serviceType }

/-- `(sd *ServiceDiscovery) Register(s Service)`.  The oracle `ext` gives
the outcome of each successive attempt at the external registration
primitive; the code performs exactly one attempt (`ext 0`).  On error it
calls `log.Fatalf`; on success it stores the entry under `s.ID()` and the
deferred `server.Shutdown()` runs before the function returns, so the
trace of a successful call is the external registration followed by the
shutdown of its handle. -/
def ServiceDiscovery.register (sd : ServiceDiscovery) (s : Service) (ext : Nat → ExtResult) :
    Outcome (ServiceDiscovery × List Event) :=
  match ext 0 with
  | .err msg => .fatal msg
  | .ok =>
      .ok ({ sd with services := insertEntry sd.services s.id (serviceEntryOf s) },
           [extRegisterEvent s, .shutdown])

/-- `GetServices()`: the list of keys of the registry map. -/
def ServiceDiscovery.getServices (sd : ServiceDiscovery) : List String :=
  sd.services.map Prod.fst

/-- `GetServiceById(id)`: pure lookup in the registry map. -/
def ServiceDiscovery.getServiceById (sd : ServiceDiscovery) (id : String) :
    Option ServiceEntry :=
  lookupEntry sd.services id

/-- A sequence of `Register` calls, each with its own oracle for the
external primitive; a fatal outcome aborts the sequence (the process has
terminated).  Traces are concatenated in order. -/
def ServiceDiscovery.runRegisters (sd : ServiceDiscovery) :
    List (Service × (Nat → ExtResult)) → Outcome (ServiceDiscovery × List Event)
  | [] => .ok (sd, [])
  | (s, ext) :: rest =>
    match sd.register s ext with
    | .ok (sd₁, tr₁) =>
      match sd₁.runRegisters rest with
      | .ok (sd₂, tr₂) => .ok (sd₂, tr₁ ++ tr₂)
      | .fatal m => .fatal m
      | .recoverableError m => .recoverableError m
    | .fatal m => .fatal m
    | .recoverableError m => .recoverableError m

/-- Decoding of one TXT record by splitting on its first `=`: the part
before the first `=` and the part after it. -/
def decodeTxt (s : String) : String × String :=
  (⟨s.data.takeWhile (fun c => c != '=')⟩,
   ⟨(s.data.dropWhile (fun c => c != '=')).drop 1⟩)

/-- Relates two operation outcomes that agree on everything the caller
and the network can observe: equal registry contents and equal traces on
normal return, and the same message on the two failure shapes. -/
def sameView :
    Outcome (ServiceDiscovery × List Event) → Outcome (ServiceDiscovery × List Event) → Prop
  | .ok (sd₁, tr₁), .ok (sd₂, tr₂) => sd₁.services = sd₂.services ∧ tr₁ = tr₂
  | .fatal m₁, .fatal m₂ => m₁ = m₂
  | .recoverableError m₁, .recoverableError m₂ => m₁ = m₂
  | _, _ => False

/-- A concrete service used to exercise the theorems (the example
scenario of the specification). -/
def svc1 : Service :=
  { hostname := "host1", port := 8080, serviceType := "_myService._tcp",
    id := "svc1", config := .strMap [("v", "1"), ("env", "prod")] }

/-- A second concrete service, with a non-mapping configuration. -/
def svc2 : Service :=
  { hostname := "host2", port := 9090, serviceType := "_myService._tcp",
    id := "svc2", config := .other "int 42" }

/-- An oracle on which every external attempt succeeds. -/
def extOk : Nat → ExtResult := fun _ => .ok

/-- A concrete discovery instance with an empty registry. -/
def sdEmpty : ServiceDiscovery := { services := [], serviceType := "_myService._tcp" }

/-- A third concrete service sharing `svc1`'s ID but differing elsewhere. -/
def svc3 : Service :=
  { hostname := "host3", port := 7070, serviceType := "_myService._tcp",
    id := "svc1", config := .other "nil" }

/-- An oracle on which every external attempt fails. -/
def extErr : Nat → ExtResult := fun _ => .err "no usable interface"

/-- An oracle whose first attempt succeeds but whose later attempts would
fail: distinguishes code that retries from code that does not. -/
def extOkThenErr : Nat → ExtResult := fun n => if n = 0 then .ok else .err "later"

/-! ## Registry lemmas -/

theorem lookupEntry_insert_self (r : List (String × ServiceEntry)) (id : String)
    (e : ServiceEntry) : lookupEntry (insertEntry r id e) id = some e := by
  simp [insertEntry, lookupEntry]

theorem lookupEntry_remove_ne (r : List (String × ServiceEntry)) (id id' : String)
    (h : id ≠ id') : lookupEntry (removeEntry r id) id' = lookupEntry r id' := by
  induction r with
  | nil => rfl
  | cons p r ih =>
    by_cases hp : p.1 = id <;> by_cases hq : p.1 = id' <;>
      simp_all [removeEntry, lookupEntry]

theorem lookupEntry_insert_ne (r : List (String × ServiceEntry)) (id id' : String)
    (e : ServiceEntry) (h : id ≠ id') :
    lookupEntry (insertEntry r id e) id' = lookupEntry r id' := by
  simp [insertEntry, lookupEntry, h, lookupEntry_remove_ne r id id' h]

theorem removeEntry_of_not_mem (r : List (String × ServiceEntry)) (id : String)
    (h : id ∉ r.map Prod.fst) : removeEntry r id = r := by
  induction r with
  | nil => rfl
  | cons p r ih =>
    have h1 : ¬ p.1 = id := fun he => h (by simp [he])
    have h2 : id ∉ r.map Prod.fst := fun hm => h (by simp [hm])
    simp [removeEntry, h1, ih h2]

/-! ## Register lemmas -/

theorem register_ok (sd : ServiceDiscovery) (s : Service) (ext : Nat → ExtResult)
    (h : ext 0 = ExtResult.ok) :
    sd.register s ext =
      .ok ({ sd with services := insertEntry sd.services s.id (serviceEntryOf s) },
           [extRegisterEvent s, .shutdown]) := by
  simp [ServiceDiscovery.register, h]

theorem register_err (sd : ServiceDiscovery) (s : Service) (ext : Nat → ExtResult)
    (m : String) (h : ext 0 = ExtResult.err m) : sd.register s ext = .fatal m := by
  simp [ServiceDiscovery.register, h]

theorem register_getServiceById (sd sd' : ServiceDiscovery) (s : Service)
    (ext : Nat → ExtResult) (tr : List Event)
    (h : sd.register s ext = .ok (sd', tr)) (id : String) :
    sd'.getServiceById id =
      if id = s.id then some (serviceEntryOf s) else sd.getServiceById id := by
  rcases hext : ext 0 with _ | m
  · rw [register_ok sd s ext hext] at h
    cases h
    by_cases hid : id = s.id
    · subst hid
      simp [ServiceDiscovery.getServiceById, lookupEntry_insert_self]
    · simp [ServiceDiscovery.getServiceById, hid,
        lookupEntry_insert_ne sd.services s.id id (serviceEntryOf s) (fun he => hid he.symm)]
  · rw [register_err sd s ext m hext] at h
    cases h

/-! ## Run lemmas -/

theorem runRegisters_nil_eq (sd sd' : ServiceDiscovery) (tr : List Event)
    (h : sd.runRegisters [] = .ok (sd', tr)) : sd' = sd ∧ tr = [] := by
  simp only [ServiceDiscovery.runRegisters, Outcome.ok.injEq, Prod.mk.injEq] at h
  exact ⟨h.1.symm, h.2.symm⟩

theorem runRegisters_cons_ok (sd : ServiceDiscovery) (s : Service) (ext : Nat → ExtResult)
    (rest : List (Service × (Nat → ExtResult))) (h : ext 0 = ExtResult.ok) :
    sd.runRegisters ((s, ext) :: rest) =
      match ServiceDiscovery.runRegisters
          { sd with services := insertEntry sd.services s.id (serviceEntryOf s) } rest with
      | .ok (sd₂, tr₂) => .ok (sd₂, [extRegisterEvent s, Event.shutdown] ++ tr₂)
      | .fatal m => .fatal m
      | .recoverableError m => .recoverableError m := by
  rw [ServiceDiscovery.runRegisters, register_ok sd s ext h]

theorem runRegisters_cons_err (sd : ServiceDiscovery) (s : Service) (ext : Nat → ExtResult)
    (rest : List (Service × (Nat → ExtResult))) (m : String) (h : ext 0 = ExtResult.err m) :
    sd.runRegisters ((s, ext) :: rest) = .fatal m := by
  rw [ServiceDiscovery.runRegisters, register_err sd s ext m h]

theorem runRegisters_lookup_frame (regs : List (Service × (Nat → ExtResult))) :
    ∀ (sd sd' : ServiceDiscovery) (tr : List Event) (id : String),
      sd.runRegisters regs = .ok (sd', tr) → (∀ p ∈ regs, p.1.id ≠ id) →
      sd'.getServiceById id = sd.getServiceById id := by
  induction regs with
  | nil =>
    intro sd sd' tr id h _
    rw [(runRegisters_nil_eq sd sd' tr h).1]
  | cons p rest ih =>
    rcases p with ⟨s, ext⟩
    intro sd sd' tr id h hid
    rcases hext : ext 0 with _ | m
    · rw [runRegisters_cons_ok sd s ext rest hext] at h
      rcases hrest : ServiceDiscovery.runRegisters
          { sd with services := insertEntry sd.services s.id (serviceEntryOf s) } rest
        with ⟨sd₂, tr₂⟩ | m | m <;> rw [hrest] at h
      · simp only [Outcome.ok.injEq, Prod.mk.injEq] at h
        obtain ⟨h1, h2⟩ := h
        subst h1
        have hs : s.id ≠ id := hid (s, ext) (by simp)
        rw [ih _ _ _ id hrest (fun q hq => hid q (by simp [hq]))]
        simp [ServiceDiscovery.getServiceById,
          lookupEntry_insert_ne sd.services s.id id (serviceEntryOf s) hs]
      · cases h
      · cases h
    · rw [runRegisters_cons_err sd s ext rest m hext] at h
      cases h

theorem runRegisters_keys (regs : List (Service × (Nat → ExtResult))) :
    ∀ (sd sd' : ServiceDiscovery) (tr : List Event),
      sd.runRegisters regs = .ok (sd', tr) →
      ((regs.map fun p => p.1.id).Nodup) →
      (∀ p ∈ regs, p.1.id ∉ sd.services.map Prod.fst) →
      sd'.services.map Prod.fst =
        (regs.map fun p => p.1.id).reverse ++ sd.services.map Prod.fst := by
  induction regs with
  | nil =>
    intro sd sd' tr h _ _
    rw [(runRegisters_nil_eq sd sd' tr h).1]
    simp
  | cons p rest ih =>
    rcases p with ⟨s, ext⟩
    intro sd sd' tr h hnd hfresh
    rcases hext : ext 0 with _ | m
    · rw [runRegisters_cons_ok sd s ext rest hext] at h
      rcases hrest : ServiceDiscovery.runRegisters
          { sd with services := insertEntry sd.services s.id (serviceEntryOf s) } rest
        with ⟨sd₂, tr₂⟩ | m | m <;> rw [hrest] at h
      · simp only [Outcome.ok.injEq, Prod.mk.injEq] at h
        obtain ⟨h1, h2⟩ := h
        subst h1
        have hsfresh : s.id ∉ sd.services.map Prod.fst := hfresh (s, ext) (by simp)
        have hkeys1 :
            (insertEntry sd.services s.id (serviceEntryOf s)).map Prod.fst =
              s.id :: sd.services.map Prod.fst := by
          simp [insertEntry, removeEntry_of_not_mem sd.services s.id hsfresh]
        have hnd' : (rest.map fun p => p.1.id).Nodup := (List.nodup_cons.mp hnd).2
        have hs_notin : s.id ∉ rest.map fun p => p.1.id := (List.nodup_cons.mp hnd).1
        have hfresh' : ∀ q ∈ rest,
            q.1.id ∉ (insertEntry sd.services s.id (serviceEntryOf s)).map Prod.fst := by
          intro q hq
          rw [hkeys1]
          intro hmem
          rcases List.mem_cons.mp hmem with he | hm
          · exact hs_notin (he ▸ List.mem_map_of_mem (fun p => p.1.id) hq)
          · exact hfresh q (by simp [hq]) hm
        have hk := ih _ _ _ hrest hnd' hfresh'
        rw [hk]
        simp only [hkeys1]
        simp
      · cases h
      · cases h
    · rw [runRegisters_cons_err sd s ext rest m hext] at h
      cases h

theorem runRegisters_isSome_mono (regs : List (Service × (Nat → ExtResult))) :
    ∀ (sd sd' : ServiceDiscovery) (tr : List Event) (id : String),
      sd.runRegisters regs = .ok (sd', tr) →
      (sd.getServiceById id).isSome → (sd'.getServiceById id).isSome := by
  induction regs with
  | nil =>
    intro sd sd' tr id h hs
    rw [(runRegisters_nil_eq sd sd' tr h).1]
    exact hs
  | cons p rest ih =>
    rcases p with ⟨s, ext⟩
    intro sd sd' tr id h hsome
    rcases hext : ext 0 with _ | m
    · rw [runRegisters_cons_ok sd s ext rest hext] at h
      rcases hrest : ServiceDiscovery.runRegisters
          { sd with services := insertEntry sd.services s.id (serviceEntryOf s) } rest
        with ⟨sd₂, tr₂⟩ | m | m <;> rw [hrest] at h
      · simp only [Outcome.ok.injEq, Prod.mk.injEq] at h
        obtain ⟨h1, h2⟩ := h
        subst h1
        refine ih _ _ _ id hrest ?_
        by_cases hid : s.id = id
        · subst hid
          simp [ServiceDiscovery.getServiceById, lookupEntry_insert_self]
        · rw [show ServiceDiscovery.getServiceById
              { sd with services := insertEntry sd.services s.id (serviceEntryOf s) } id =
              sd.getServiceById id from by
            simp [ServiceDiscovery.getServiceById,
              lookupEntry_insert_ne sd.services s.id id (serviceEntryOf s) hid]]
          exact hsome
      · cases h
      · cases h
    · rw [runRegisters_cons_err sd s ext rest m hext] at h
      cases h

theorem register_sameView (sd₁ sd₂ : ServiceDiscovery) (s : Service) (ext : Nat → ExtResult)
    (h : sd₁.services = sd₂.services) :
    sameView (sd₁.register s ext) (sd₂.register s ext) := by
  rcases hext : ext 0 with _ | m
  · rw [register_ok sd₁ s ext hext, register_ok sd₂ s ext hext]
    exact ⟨by simp [h], rfl⟩
  · rw [register_err sd₁ s ext m hext, register_err sd₂ s ext m hext]
    rfl

theorem runRegisters_sameView (regs : List (Service × (Nat → ExtResult))) :
    ∀ (sd₁ sd₂ : ServiceDiscovery), sd₁.services = sd₂.services →
      sameView (sd₁.runRegisters regs) (sd₂.runRegisters regs) := by
  induction regs with
  | nil =>
    intro sd₁ sd₂ h
    exact ⟨h, rfl⟩
  | cons p rest ih =>
    rcases p with ⟨s, ext⟩
    intro sd₁ sd₂ h
    rcases hext : ext 0 with _ | m
    · rw [runRegisters_cons_ok sd₁ s ext rest hext, runRegisters_cons_ok sd₂ s ext rest hext]
      have hins :
          ({ sd₁ with services := insertEntry sd₁.services s.id (serviceEntryOf s) }
              : ServiceDiscovery).services =
            ({ sd₂ with services := insertEntry sd₂.services s.id (serviceEntryOf s) }
              : ServiceDiscovery).services := by
        simp [h]
      have hrec := ih _ _ hins
      rcases hr₁ : ServiceDiscovery.runRegisters
          { sd₁ with services := insertEntry sd₁.services s.id (serviceEntryOf s) } rest
        with ⟨sda, tra⟩ | m | m <;>
      rcases hr₂ : ServiceDiscovery.runRegisters
          { sd₂ with services := insertEntry sd₂.services s.id (serviceEntryOf s) } rest
        with ⟨sdb, trb⟩ | m' | m' <;>
      rw [hr₁, hr₂] at hrec <;>
      simp only [sameView] at hrec ⊢ <;> try exact hrec
      · exact ⟨hrec.1, by rw [hrec.2]⟩
    · rw [runRegisters_cons_err sd₁ s ext rest m hext,
        runRegisters_cons_err sd₂ s ext rest m hext]
      rfl

/-! ## TXT decoding lemmas -/

theorem takeWhile_until_eq (l rest : List Char) (h : ∀ c ∈ l, c ≠ '=') :
    (l ++ '=' :: rest).takeWhile (fun c => c != '=') = l := by
  induction l with
  | nil => simp [List.takeWhile_cons]
  | cons a l ih =>
    have ha : a ≠ '=' := h a (by simp)
    simp only [List.cons_append, List.takeWhile_cons]
    rw [if_pos (by simp [ha]), ih (fun c hc => h c (by simp [hc]))]

theorem dropWhile_until_eq (l rest : List Char) (h : ∀ c ∈ l, c ≠ '=') :
    (l ++ '=' :: rest).dropWhile (fun c => c != '=') = '=' :: rest := by
  induction l with
  | nil => simp [List.dropWhile_cons]
  | cons a l ih =>
    have ha : a ≠ '=' := h a (by simp)
    simp only [List.cons_append, List.dropWhile_cons]
    rw [if_pos (by simp [ha]), ih (fun c hc => h c (by simp [hc]))]

theorem decodeTxt_encode (k v : String) (hk : ∀ c ∈ k.data, c ≠ '=') :
    decodeTxt (k ++ "=" ++ v) = (k, v) := by
  have hdata : (k ++ "=" ++ v).data = k.data ++ '=' :: v.data := by
    simp [String.data_append]
  unfold decodeTxt
  rw [hdata, takeWhile_until_eq k.data v.data hk, dropWhile_until_eq k.data v.data hk]
  simp

/-! ## The claims -/

/-- C1: for every service `s`, after `Register(s)` completes,
`GetServiceById(s.ID())` returns a present entry whose hostname equals
`s.Hostname()` and whose port equals `s.Port()`. -/
theorem C1_register_then_getServiceById (sd sd' : ServiceDiscovery) (s : Service)
    (ext : Nat → ExtResult) (tr : List Event)
    (h : sd.register s ext = .ok (sd', tr)) :
    sd'.getServiceById s.id = some (serviceEntryOf s) ∧
    (serviceEntryOf s).hostName = s.hostname ∧ (serviceEntryOf s).port = s.port := by
  refine ⟨?_, rfl, rfl⟩
  rw [register_getServiceById sd sd' s ext tr h s.id, if_pos rfl]

theorem C1_witness :
    ServiceDiscovery.getServiceById
        { services := [("svc1", serviceEntryOf svc1)], serviceType := "_myService._tcp" }
        svc1.id =
      some (serviceEntryOf svc1) ∧
    (serviceEntryOf svc1).hostName = svc1.hostname ∧
    (serviceEntryOf svc1).port = svc1.port :=
  C1_register_then_getServiceById sdEmpty
    { services := [("svc1", serviceEntryOf svc1)], serviceType := "_myService._tcp" }
    svc1 extOk [extRegisterEvent svc1, Event.shutdown] rfl

/-- C2: the configuration encoder applied during `Register` emits one
`"key=value"` string per entry when the configuration value is
structurally a string-to-string mapping, and emits an empty sequence
without raising any error for a configuration value of any other
shape. -/
theorem C2_encoder_shape (entries : List (String × String)) (shape : String) :
    encodeTxtRecords (.strMap entries) = entries.map (fun kv => kv.1 ++ "=" ++ kv.2) ∧
    (encodeTxtRecords (.strMap entries)).length = entries.length ∧
    encodeTxtRecords (.other shape) = [] := by
  refine ⟨rfl, ?_, rfl⟩
  simp [encodeTxtRecords]

/-- C3: for every two services with the same ID, registering both in
sequence leaves only the entry built from the second one under that ID
(last-write-wins). -/
theorem C3_last_write_wins (sd sd₁ sd₂ : ServiceDiscovery) (s₁ s₂ : Service)
    (ext₁ ext₂ : Nat → ExtResult) (tr₁ tr₂ : List Event) (hid : s₁.id = s₂.id)
    (h₁ : sd.register s₁ ext₁ = .ok (sd₁, tr₁))
    (h₂ : sd₁.register s₂ ext₂ = .ok (sd₂, tr₂)) :
    sd₂.getServiceById s₁.id = some (serviceEntryOf s₂) := by
  rw [register_getServiceById sd₁ sd₂ s₂ ext₂ tr₂ h₂ s₁.id, if_pos hid]

theorem C3_witness :
    ServiceDiscovery.getServiceById
        { services := [("svc1", serviceEntryOf svc3)], serviceType := "_myService._tcp" }
        svc1.id =
      some (serviceEntryOf svc3) :=
  C3_last_write_wins sdEmpty
    { services := [("svc1", serviceEntryOf svc1)], serviceType := "_myService._tcp" }
    { services := [("svc1", serviceEntryOf svc3)], serviceType := "_myService._tcp" }
    svc1 svc3 extOk extOk
    [extRegisterEvent svc1, Event.shutdown] [extRegisterEvent svc3, Event.shutdown]
    rfl rfl rfl

/-- C4: for every ID that was never registered, `GetServiceById(id)`
returns an explicit absent indicator (`none`), not an error and not a
default entry; the lookup is a pure function and absence is a normal
outcome. -/
theorem C4_unknown_id_absent (st : String) (rext : Nat → ExtResult)
    (sd₀ sd' : ServiceDiscovery) (tr : List Event)
    (regs : List (Service × (Nat → ExtResult))) (id : String)
    (h₀ : NewServiceDiscovery st rext = .ok sd₀)
    (hrun : sd₀.runRegisters regs = .ok (sd', tr))
    (hid : ∀ p ∈ regs, p.1.id ≠ id) :
    sd'.getServiceById id = none := by
  have hframe := runRegisters_lookup_frame regs sd₀ sd' tr id hrun hid
  have hsd₀ : sd₀ = { services := [], serviceType := st } := by
    rcases hr : rext 0 with _ | m
    · simp only [NewServiceDiscovery, hr, Outcome.ok.injEq] at h₀
      exact h₀.symm
    · simp [NewServiceDiscovery, hr] at h₀
  rw [hframe, hsd₀]
  rfl

theorem C4_witness :
    ServiceDiscovery.getServiceById
      { services := [("svc1", serviceEntryOf svc1)], serviceType := "_t" } "other" = none :=
  C4_unknown_id_absent "_t" extOk { services := [], serviceType := "_t" }
    { services := [("svc1", serviceEntryOf svc1)], serviceType := "_t" }
    [extRegisterEvent svc1, Event.shutdown] [(svc1, extOk)] "other" rfl rfl
    (by
      intro p hp
      rw [List.mem_singleton] at hp
      subst hp
      decide)

/-- C5: both failure kinds — resolver construction failure in
`NewServiceDiscovery` and external registration failure in `Register` —
abort the process (`log.Fatalf`); no error is ever surfaced to the caller
as a recoverable result, and nothing is retried (each operation's outcome
depends only on its first external attempt). -/
theorem C5_failures_abort :
    (∀ (st : String) (rext : Nat → ExtResult) (m : String),
      rext 0 = ExtResult.err m → NewServiceDiscovery st rext = .fatal m) ∧
    (∀ (st : String) (rext : Nat → ExtResult) (m : String),
      NewServiceDiscovery st rext ≠ .recoverableError m) ∧
    (∀ (st : String) (rext rext' : Nat → ExtResult), rext 0 = rext' 0 →
      NewServiceDiscovery st rext = NewServiceDiscovery st rext') ∧
    (∀ (sd : ServiceDiscovery) (s : Service) (ext : Nat → ExtResult) (m : String),
      ext 0 = ExtResult.err m → sd.register s ext = .fatal m) ∧
    (∀ (sd : ServiceDiscovery) (s : Service) (ext : Nat → ExtResult) (m : String),
      sd.register s ext ≠ .recoverableError m) ∧
    (∀ (sd : ServiceDiscovery) (s : Service) (ext ext' : Nat → ExtResult),
      ext 0 = ext' 0 → sd.register s ext = sd.register s ext') := by
  refine ⟨?_, ?_, ?_, ?_, ?_, ?_⟩
  · intro st rext m h
    simp [NewServiceDiscovery, h]
  · intro st rext m h
    rcases hr : rext 0 with _ | m' <;> simp [NewServiceDiscovery, hr] at h
  · intro st rext rext' h
    simp only [NewServiceDiscovery, h]
  · intro sd s ext m h
    exact register_err sd s ext m h
  · intro sd s ext m h
    rcases hr : ext 0 with _ | m'
    · rw [register_ok sd s ext hr] at h
      cases h
    · rw [register_err sd s ext m' hr] at h
      cases h
  · intro sd s ext ext' h
    simp only [ServiceDiscovery.register, h]

theorem C5_witness :
    NewServiceDiscovery "_t" extErr = .fatal "no usable interface" ∧
    NewServiceDiscovery "_t" extErr ≠ .recoverableError "no usable interface" ∧
    NewServiceDiscovery "_t" extOk = NewServiceDiscovery "_t" extOkThenErr ∧
    sdEmpty.register svc1 extErr = .fatal "no usable interface" ∧
    sdEmpty.register svc1 extErr ≠ .recoverableError "no usable interface" ∧
    sdEmpty.register svc1 extOk = sdEmpty.register svc1 extOkThenErr :=
  ⟨C5_failures_abort.1 "_t" extErr "no usable interface" rfl,
   C5_failures_abort.2.1 "_t" extErr "no usable interface",
   C5_failures_abort.2.2.1 "_t" extOk extOkThenErr rfl,
   C5_failures_abort.2.2.2.1 sdEmpty svc1 extErr "no usable interface" rfl,
   C5_failures_abort.2.2.2.2.1 sdEmpty svc1 extErr "no usable interface",
   C5_failures_abort.2.2.2.2.2 sdEmpty svc1 extOk extOkThenErr rfl⟩

/-- C6: after registering N services with pairwise distinct IDs on a
fresh instance, `GetServices()` returns a sequence of exactly N distinct
IDs, equal as a set to the registered IDs (no ordering guarantee is
asserted). -/
theorem C6_getServices_distinct (st : String) (rext : Nat → ExtResult)
    (sd₀ sd' : ServiceDiscovery) (tr : List Event)
    (regs : List (Service × (Nat → ExtResult)))
    (h₀ : NewServiceDiscovery st rext = .ok sd₀)
    (hrun : sd₀.runRegisters regs = .ok (sd', tr))
    (hnd : (regs.map fun p => p.1.id).Nodup) :
    sd'.getServices.length = regs.length ∧
    sd'.getServices.Nodup ∧
    (∀ id, id ∈ sd'.getServices ↔ id ∈ regs.map fun p => p.1.id) := by
  have hsd₀ : sd₀ = { services := [], serviceType := st } := by
    rcases hr : rext 0 with _ | m
    · simp only [NewServiceDiscovery, hr, Outcome.ok.injEq] at h₀
      exact h₀.symm
    · simp [NewServiceDiscovery, hr] at h₀
  subst hsd₀
  have hk := runRegisters_keys regs _ sd' tr hrun hnd (by intro p hp; simp)
  have hk' : sd'.getServices = (regs.map fun p => p.1.id).reverse := by
    simp only [ServiceDiscovery.getServices]
    rw [hk]
    simp
  refine ⟨?_, ?_, ?_⟩
  · rw [hk']
    simp
  · rw [hk']
    exact (List.nodup_reverse).mpr hnd
  · intro id
    rw [hk']
    simp

theorem C6_witness :
    (ServiceDiscovery.getServices
        { services := [("svc2", serviceEntryOf svc2), ("svc1", serviceEntryOf svc1)],
          serviceType := "_t" }).length = 2 ∧
    (ServiceDiscovery.getServices
        { services := [("svc2", serviceEntryOf svc2), ("svc1", serviceEntryOf svc1)],
          serviceType := "_t" }).Nodup ∧
    ("svc2" ∈ ServiceDiscovery.getServices
        { services := [("svc2", serviceEntryOf svc2), ("svc1", serviceEntryOf svc1)],
          serviceType := "_t" } ↔ "svc2" ∈ (["svc1", "svc2"] : List String)) :=
  ⟨(C6_getServices_distinct "_t" extOk { services := [], serviceType := "_t" }
      { services := [("svc2", serviceEntryOf svc2), ("svc1", serviceEntryOf svc1)],
        serviceType := "_t" }
      [extRegisterEvent svc1, Event.shutdown, extRegisterEvent svc2, Event.shutdown]
      [(svc1, extOk), (svc2, extOk)] rfl rfl (by decide)).1,
   (C6_getServices_distinct "_t" extOk { services := [], serviceType := "_t" }
      { services := [("svc2", serviceEntryOf svc2), ("svc1", serviceEntryOf svc1)],
        serviceType := "_t" }
      [extRegisterEvent svc1, Event.shutdown, extRegisterEvent svc2, Event.shutdown]
      [(svc1, extOk), (svc2, extOk)] rfl rfl (by decide)).2.1,
   (C6_getServices_distinct "_t" extOk { services := [], serviceType := "_t" }
      { services := [("svc2", serviceEntryOf svc2), ("svc1", serviceEntryOf svc1)],
        serviceType := "_t" }
      [extRegisterEvent svc1, Event.shutdown, extRegisterEvent svc2, Event.shutdown]
      [(svc1, extOk), (svc2, extOk)] rfl rfl (by decide)).2.2 "svc2"⟩

/-- C7: for every configuration mapping with unique string keys where no
key or value contains `=`, the encoded TXT sequence has exactly one
`"key=value"` entry per mapping entry, and splitting each encoded string
on its first `=` recovers exactly the original key-value pairs. -/
theorem C7_txt_roundtrip (entries : List (String × String))
    (hnd : (entries.map Prod.fst).Nodup)
    (hchars : ∀ kv ∈ entries,
      (∀ c ∈ kv.1.data, c ≠ '=') ∧ (∀ c ∈ kv.2.data, c ≠ '=')) :
    (encodeTxtRecords (.strMap entries)).length = entries.length ∧
    (encodeTxtRecords (.strMap entries)).map decodeTxt = entries := by
  refine ⟨by simp [encodeTxtRecords], ?_⟩
  simp only [encodeTxtRecords, List.map_map]
  have hpt : ∀ kv ∈ entries, decodeTxt (kv.1 ++ "=" ++ kv.2) = kv := fun kv hkv => by
    rw [decodeTxt_encode kv.1 kv.2 (hchars kv hkv).1]
  calc entries.map (decodeTxt ∘ fun kv => kv.1 ++ "=" ++ kv.2)
      = entries.map id := List.map_congr_left (fun kv hkv => hpt kv hkv)
    _ = entries := List.map_id entries

theorem C7_witness :
    (encodeTxtRecords (.strMap [("v", "1"), ("env", "prod")])).length =
      ([("v", "1"), ("env", "prod")] : List (String × String)).length ∧
    (encodeTxtRecords (.strMap [("v", "1"), ("env", "prod")])).map decodeTxt =
      [("v", "1"), ("env", "prod")] :=
  C7_txt_roundtrip [("v", "1"), ("env", "prod")] (by decide) (by decide)

/-- C8: for every successful `Register(s)` call, the registration handle
obtained from the external primitive is shut down before `Register`
returns: the call's trace ends with the shutdown of the handle, so the
announcement is not kept alive beyond the call. -/
theorem C8_handle_shutdown (sd sd' : ServiceDiscovery) (s : Service)
    (ext : Nat → ExtResult) (tr : List Event)
    (h : sd.register s ext = .ok (sd', tr)) :
    tr.getLast? = some Event.shutdown ∧ Event.shutdown ∈ tr := by
  rcases hext : ext 0 with _ | m
  · rw [register_ok sd s ext hext] at h
    simp only [Outcome.ok.injEq, Prod.mk.injEq] at h
    rw [← h.2]
    exact ⟨rfl, by simp⟩
  · rw [register_err sd s ext m hext] at h
    cases h

theorem C8_witness :
    List.getLast? [extRegisterEvent svc1, Event.shutdown] = some Event.shutdown ∧
    Event.shutdown ∈ [extRegisterEvent svc1, Event.shutdown] :=
  C8_handle_shutdown sdEmpty
    { services := [("svc1", serviceEntryOf svc1)], serviceType := "_myService._tcp" }
    svc1 extOk [extRegisterEvent svc1, Event.shutdown] rfl

/-- C9: `Register(s)` leaves every registry entry stored under an ID
other than `s.ID()` unchanged, never turns a present entry absent, and no
sequence of operations ever removes an entry from the registry
(`GetServices` and `GetServiceById` are pure and do not touch the
state). -/
theorem C9_register_frame (sd sd' : ServiceDiscovery) (s : Service)
    (ext : Nat → ExtResult) (tr : List Event)
    (h : sd.register s ext = .ok (sd', tr)) :
    (∀ id, id ≠ s.id → sd'.getServiceById id = sd.getServiceById id) ∧
    (∀ id, (sd.getServiceById id).isSome → (sd'.getServiceById id).isSome) ∧
    (∀ (regs : List (Service × (Nat → ExtResult))) (sd₂ : ServiceDiscovery)
        (tr₂ : List Event), sd.runRegisters regs = .ok (sd₂, tr₂) →
      ∀ id, (sd.getServiceById id).isSome → (sd₂.getServiceById id).isSome) := by
  refine ⟨?_, ?_,
    fun regs sd₂ tr₂ hrun id => runRegisters_isSome_mono regs sd sd₂ tr₂ id hrun⟩
  · intro id hid
    rw [register_getServiceById sd sd' s ext tr h id, if_neg hid]
  · intro id hsome
    rw [register_getServiceById sd sd' s ext tr h id]
    by_cases hid : id = s.id
    · rw [if_pos hid]
      rfl
    · rw [if_neg hid]
      exact hsome

theorem C9_witness :
    (ServiceDiscovery.getServiceById
        { services := [("svc2", serviceEntryOf svc2), ("svc1", serviceEntryOf svc1)],
          serviceType := "_t" } "svc1" =
      ServiceDiscovery.getServiceById
        { services := [("svc1", serviceEntryOf svc1)], serviceType := "_t" } "svc1") ∧
    (ServiceDiscovery.getServiceById
        { services := [("svc2", serviceEntryOf svc2), ("svc1", serviceEntryOf svc1)],
          serviceType := "_t" } "svc1").isSome = true :=
  ⟨(C9_register_frame
      { services := [("svc1", serviceEntryOf svc1)], serviceType := "_t" }
      { services := [("svc2", serviceEntryOf svc2), ("svc1", serviceEntryOf svc1)],
        serviceType := "_t" }
      svc2 extOk [extRegisterEvent svc2, Event.shutdown] rfl).1 "svc1" (by decide),
   (C9_register_frame
      { services := [("svc1", serviceEntryOf svc1)], serviceType := "_t" }
      { services := [("svc2", serviceEntryOf svc2), ("svc1", serviceEntryOf svc1)],
        serviceType := "_t" }
      svc2 extOk [extRegisterEvent svc2, Event.shutdown] rfl).2.1 "svc1" (by decide)⟩

/-- C10: the `serviceType` stored by `NewServiceDiscovery` is never read
by `Register`, `GetServices` or `GetServiceById`: two instances agreeing
on their registries but differing in `serviceType` produce identical
registry contents, traces and results under the same operations, and the
external registration call carries `s.ServiceType()` (the service's own
type), not the instance's. -/
theorem C10_serviceType_unread (sd₁ sd₂ : ServiceDiscovery)
    (h : sd₁.services = sd₂.services) :
    (∀ regs : List (Service × (Nat → ExtResult)),
      sameView (sd₁.runRegisters regs) (sd₂.runRegisters regs)) ∧
    sd₁.getServices = sd₂.getServices ∧
    (∀ id, sd₁.getServiceById id = sd₂.getServiceById id) ∧
    (∀ (s : Service) (ext : Nat → ExtResult) (sd' : ServiceDiscovery) (tr : List Event),
      sd₁.register s ext = .ok (sd', tr) →
      tr.head? = some (Event.extRegister s.hostname s.serviceType "local." s.port
        (encodeTxtRecords s.config))) := by
  refine ⟨fun regs => runRegisters_sameView regs sd₁ sd₂ h, ?_, ?_, ?_⟩
  · simp only [ServiceDiscovery.getServices, h]
  · intro id
    simp only [ServiceDiscovery.getServiceById, h]
  · intro s ext sd' tr hreg
    rcases hext : ext 0 with _ | m
    · rw [register_ok sd₁ s ext hext] at hreg
      simp only [Outcome.ok.injEq, Prod.mk.injEq] at hreg
      rw [← hreg.2]
      rfl
    · rw [register_err sd₁ s ext m hext] at hreg
      cases hreg

theorem C10_witness :
    sameView (ServiceDiscovery.runRegisters { services := [], serviceType := "typeA" } [])
      (ServiceDiscovery.runRegisters { services := [], serviceType := "typeB" } []) ∧
    ServiceDiscovery.getServices { services := [], serviceType := "typeA" } =
      ServiceDiscovery.getServices { services := [], serviceType := "typeB" } ∧
    ServiceDiscovery.getServiceById { services := [], serviceType := "typeA" } "svc1" =
      ServiceDiscovery.getServiceById { services := [], serviceType := "typeB" } "svc1" ∧
    List.head? [extRegisterEvent svc1, Event.shutdown] =
      some (Event.extRegister svc1.hostname svc1.serviceType "local." svc1.port
        (encodeTxtRecords svc1.config)) :=
  ⟨(C10_serviceType_unread ⟨[], "typeA"⟩ ⟨[], "typeB"⟩ rfl).1 [],
   (C10_serviceType_unread ⟨[], "typeA"⟩ ⟨[], "typeB"⟩ rfl).2.1,
   (C10_serviceType_unread ⟨[], "typeA"⟩ ⟨[], "typeB"⟩ rfl).2.2.1 "svc1",
   (C10_serviceType_unread ⟨[], "typeA"⟩ ⟨[], "typeB"⟩ rfl).2.2.2 svc1 extOk
     { services := [("svc1", serviceEntryOf svc1)], serviceType := "typeA" }
     [extRegisterEvent svc1, Event.shutdown] rfl⟩
